import Mathlib

/-!
Verification of the BorgorTube orchestration core against its specification.

The definitions below are a shallow embedding of `src/main.py` and
`src/youtube_player.py`: Python dictionaries become structures with
`Option`-valued fields, Python sets become lists used up to membership,
machine I/O (sockets, files, subprocesses, the headless browser) becomes
explicit environment/outcome values passed to the embedded functions, and
Python exceptions become `Except` values.  Strings manipulated
character-by-character (duration formatting/parsing) are embedded as
`List Char`.
-/

/-- One entry of a video's `formats` list.  In the Python source a format is a
dict; `f.get("height")` / `f.get("fps")` may be absent, which
`available_buckets` coerces to `0` via `or 0`. -/
structure FormatRecord where
  height : Option Nat
  fps : Option Nat
deriving DecidableEq, Repr

/-- The metadata record returned by extraction (`extract_formats`).  Only the
fields the verified claims touch are carried; `formats` is `none` when the
`formats` key is absent (`info.get("formats", [])`). -/
structure VideoInfo where
  title : Option String
  formats : Option (List FormatRecord)
deriving DecidableEq, Repr

/-- `ALL_QUALITIES = list(FORMAT_MAPPING.keys())` from `src/main.py`:
the fixed descending preference order of the quality buckets. -/
def ALL_QUALITIES : List String :=
  ["2k", "1080p60", "1080p", "720p60", "720p", "360p", "240p", "144p"]

/-- The buckets a single format adds to `bucket_avail` in
`available_buckets` (`src/main.py`, lines 206-224): the eight `if`
tests over `h = f.get("height") or 0` and `fps = f.get("fps") or 0`. -/
def formatBuckets (f : FormatRecord) : List String :=
  let h := f.height.getD 0
  let fps := f.fps.getD 0
  (if 1440 ≤ h then ["2k"] else []) ++
  (if 1080 ≤ h ∧ 60 ≤ fps then ["1080p60"] else []) ++
  (if 1080 ≤ h then ["1080p"] else []) ++
  (if 720 ≤ h ∧ 60 ≤ fps then ["720p60"] else []) ++
  (if 720 ≤ h ∧ h < 1080 then ["720p"] else []) ++
  (if 360 ≤ h ∧ h < 720 then ["360p"] else []) ++
  (if 240 ≤ h ∧ h < 360 then ["240p"] else []) ++
  (if 144 ≤ h ∧ h < 240 then ["144p"] else [])

/-- The `bucket_avail` set accumulated over the format list in
`available_buckets`.  The Python `set` is embedded as a list used only
through membership. -/
def bucket_avail (formats : List FormatRecord) : List String :=
  formats.foldl (fun acc f => acc ++ formatBuckets f) []

/-- `available_buckets(info)` from `src/main.py` lines 203-226: accumulate
the bucket set over all formats, keep `ALL_QUALITIES` order, and fall back
to `["360p"]` when nothing qualifies. -/
def available_buckets (info : VideoInfo) : List String :=
  let formats := info.formats.getD []
  let result := ALL_QUALITIES.filter (fun q => decide (q ∈ bucket_avail formats))
  if result.isEmpty then ["360p"] else result

/-- Membership in the accumulated bucket set is exactly satisfaction by some
format of the list. -/
theorem mem_bucket_avail (fs : List FormatRecord) (q : String) :
    q ∈ bucket_avail fs ↔ ∃ f ∈ fs, q ∈ formatBuckets f := by
  have key : ∀ (l : List FormatRecord) (acc : List String),
      q ∈ l.foldl (fun a f => a ++ formatBuckets f) acc ↔
        q ∈ acc ∨ ∃ f ∈ l, q ∈ formatBuckets f := by
    intro l
    induction l with
    | nil => simp
    | cons f l ih =>
        intro acc
        simp [ih, List.mem_append, or_assoc]
  simpa using key fs []

example :
    available_buckets ⟨some "t", some [⟨some 1080, some 60⟩]⟩ =
      ["1080p60", "1080p", "720p60"] := by decide

example :
    available_buckets ⟨some "t", some [⟨some 1440, some 30⟩, ⟨some 144, some 30⟩]⟩ =
      ["2k", "1080p", "144p"] := by decide

/-- Claim C4: for every `VideoInfo` whose format list is empty (or whose
`formats` key is absent), `available_buckets` returns the hard-coded default
floor bucket `["360p"]`, never an empty collection. -/
theorem claim_C4_empty_formats_default (info : VideoInfo)
    (h : info.formats = none ∨ info.formats = some []) :
    available_buckets info = ["360p"] := by
  rcases h with h | h <;> simp only [available_buckets, h] <;> decide

theorem claim_C4_witness :
    (VideoInfo.formats ⟨none, none⟩ = none ∨
      VideoInfo.formats ⟨none, none⟩ = some []) ∧
    available_buckets ⟨none, none⟩ = ["360p"] :=
  ⟨Or.inl rfl, claim_C4_empty_formats_default ⟨none, none⟩ (Or.inl rfl)⟩

/-- A 1440-tall format with effective fps below 60 satisfies exactly the
`2k` and `1080p` tests (the `1080p` test has no upper height bound). -/
theorem formatBuckets_1440 (f : FormatRecord) (hh : f.height = some 1440)
    (hf : f.fps.getD 0 < 60) : formatBuckets f = ["2k", "1080p"] := by
  simp [formatBuckets, hh, not_le.mpr hf]

/-- A 1080-tall format with effective fps below 60 satisfies exactly the
`1080p` test. -/
theorem formatBuckets_1080 (f : FormatRecord) (hh : f.height = some 1080)
    (hf : f.fps.getD 0 < 60) : formatBuckets f = ["1080p"] := by
  simp [formatBuckets, hh, not_le.mpr hf]

/-- A 720-tall format with effective fps below 60 satisfies exactly the
`720p` test. -/
theorem formatBuckets_720 (f : FormatRecord) (hh : f.height = some 720)
    (hf : f.fps.getD 0 < 60) : formatBuckets f = ["720p"] := by
  simp [formatBuckets, hh, not_le.mpr hf]

/-- A 360-tall format satisfies exactly the `360p` test, at any fps. -/
theorem formatBuckets_360 (f : FormatRecord) (hh : f.height = some 360) :
    formatBuckets f = ["360p"] := by
  simp [formatBuckets, hh]

/-- A 144-tall format satisfies exactly the `144p` test, at any fps. -/
theorem formatBuckets_144 (f : FormatRecord) (hh : f.height = some 144) :
    formatBuckets f = ["144p"] := by
  simp [formatBuckets, hh]

/-- Claim C1, as stated, is false on the code: a single 1080p/60fps format
also satisfies the `720p60` test (`h >= 720 and fps >= 60`), so the result
is not limited to `["1080p60", "1080p"]`. -/
theorem claim_C1_counterexample :
    available_buckets ⟨some "v", some [⟨some 1080, some 60⟩]⟩ ≠
      ["1080p60", "1080p"] := by decide

/-- Claim C1 amended: for a `VideoInfo` whose format list contains exactly
one `FormatRecord` with height 1080 and fps 60, `available_buckets` returns
`["1080p60", "1080p", "720p60"]` — `1080p60` and `1080p` are both available
and in that order, but the format also satisfies the `720p60` bucket, which
is returned as well. -/
theorem claim_C1_amended (info : VideoInfo)
    (hfs : info.formats = some [⟨some 1080, some 60⟩]) :
    available_buckets info = ["1080p60", "1080p", "720p60"] := by
  simp only [available_buckets, hfs]
  decide

theorem claim_C1_witness :
    (VideoInfo.formats ⟨some "v", some [⟨some 1080, some 60⟩]⟩ =
      some [⟨some 1080, some 60⟩]) ∧
    available_buckets ⟨some "v", some [⟨some 1080, some 60⟩]⟩ =
      ["1080p60", "1080p", "720p60"] :=
  ⟨rfl, claim_C1_amended ⟨some "v", some [⟨some 1080, some 60⟩]⟩ rfl⟩

/-- Claim C2, as stated, is false on the code: the 1440-tall format also
satisfies the `1080p` test (`h >= 1080` has no upper bound), so `1080p` is
reported in addition to `2k` and `144p`. -/
theorem claim_C2_counterexample :
    available_buckets ⟨some "v", some [⟨some 1440, some 30⟩, ⟨some 144, some 30⟩]⟩ ≠
      ["2k", "144p"] := by decide

/-- Claim C2 amended: for a `VideoInfo` offering only formats of height 1440
and height 144 (each with effective fps below 60, at least one format of
each height), `available_buckets` returns exactly `["2k", "1080p", "144p"]`:
besides `2k` and `144p`, the 1440-tall formats also satisfy the unbounded
`1080p` test, while every other intermediate bucket is skipped. -/
theorem claim_C2_amended (info : VideoInfo) (fs : List FormatRecord)
    (hfs : info.formats = some fs)
    (hall : ∀ f ∈ fs,
      (f.height = some 1440 ∨ f.height = some 144) ∧ f.fps.getD 0 < 60)
    (h1440 : ∃ f ∈ fs, f.height = some 1440)
    (h144 : ∃ f ∈ fs, f.height = some 144) :
    available_buckets info = ["2k", "1080p", "144p"] := by
  have hfb : ∀ f ∈ fs,
      formatBuckets f = ["2k", "1080p"] ∨ formatBuckets f = ["144p"] := by
    intro f hf
    rcases (hall f hf).1 with h | h
    · exact Or.inl (formatBuckets_1440 f h (hall f hf).2)
    · exact Or.inr (formatBuckets_144 f h)
  obtain ⟨f1, hf1, hh1⟩ := h1440
  obtain ⟨f2, hf2, hh2⟩ := h144
  have m2k : "2k" ∈ bucket_avail fs := by
    rw [mem_bucket_avail]
    exact ⟨f1, hf1, by rw [formatBuckets_1440 f1 hh1 (hall f1 hf1).2]; simp⟩
  have m1080p : "1080p" ∈ bucket_avail fs := by
    rw [mem_bucket_avail]
    exact ⟨f1, hf1, by rw [formatBuckets_1440 f1 hh1 (hall f1 hf1).2]; simp⟩
  have m144p : "144p" ∈ bucket_avail fs := by
    rw [mem_bucket_avail]
    exact ⟨f2, hf2, by rw [formatBuckets_144 f2 hh2]; simp⟩
  have hnot : ∀ q : String, q ∉ (["2k", "1080p"] : List String) →
      q ∉ (["144p"] : List String) → q ∉ bucket_avail fs := by
    intro q hq1 hq2 hq
    rw [mem_bucket_avail] at hq
    obtain ⟨f, hf, hm⟩ := hq
    rcases hfb f hf with h | h <;> rw [h] at hm
    · exact hq1 hm
    · exact hq2 hm
  simp only [available_buckets, hfs, Option.getD_some, ALL_QUALITIES,
    List.filter_cons, List.filter_nil, decide_eq_true_eq]
  rw [if_pos m2k, if_neg (hnot "1080p60" (by decide) (by decide)),
    if_pos m1080p, if_neg (hnot "720p60" (by decide) (by decide)),
    if_neg (hnot "720p" (by decide) (by decide)),
    if_neg (hnot "360p" (by decide) (by decide)),
    if_neg (hnot "240p" (by decide) (by decide)), if_pos m144p]
  rfl

theorem claim_C2_witness :
    available_buckets ⟨some "v", some [⟨some 1440, some 30⟩, ⟨some 144, none⟩]⟩ =
      ["2k", "1080p", "144p"] :=
  claim_C2_amended ⟨some "v", some [⟨some 1440, some 30⟩, ⟨some 144, none⟩]⟩
    [⟨some 1440, some 30⟩, ⟨some 144, none⟩] rfl
    (by decide)
    ⟨⟨some 1440, some 30⟩, by decide⟩
    ⟨⟨some 144, none⟩, by decide⟩

/-- Claim C3: for every `VideoInfo` whose formats have exactly the heights
144, 360, 720, 1080 and 1440, each at 30 fps, `available_buckets` returns
exactly `["2k", "1080p", "720p", "360p", "144p"]` in that descending order,
with no 60fps bucket included. -/
theorem claim_C3_five_heights (info : VideoInfo) (fs : List FormatRecord)
    (hfs : info.formats = some fs)
    (hheights : ∀ f ∈ fs, f.height = some 144 ∨ f.height = some 360 ∨
      f.height = some 720 ∨ f.height = some 1080 ∨ f.height = some 1440)
    (hfps : ∀ f ∈ fs, f.fps = some 30)
    (hc144 : ∃ f ∈ fs, f.height = some 144)
    (hc360 : ∃ f ∈ fs, f.height = some 360)
    (hc720 : ∃ f ∈ fs, f.height = some 720)
    (hc1080 : ∃ f ∈ fs, f.height = some 1080)
    (hc1440 : ∃ f ∈ fs, f.height = some 1440) :
    available_buckets info = ["2k", "1080p", "720p", "360p", "144p"] := by
  have hlow : ∀ f ∈ fs, f.fps.getD 0 < 60 := by
    intro f hf
    simp [hfps f hf]
  have hfb : ∀ f ∈ fs,
      formatBuckets f = ["144p"] ∨ formatBuckets f = ["360p"] ∨
      formatBuckets f = ["720p"] ∨ formatBuckets f = ["1080p"] ∨
      formatBuckets f = ["2k", "1080p"] := by
    intro f hf
    rcases hheights f hf with h | h | h | h | h
    · exact Or.inl (formatBuckets_144 f h)
    · exact Or.inr (Or.inl (formatBuckets_360 f h))
    · exact Or.inr (Or.inr (Or.inl (formatBuckets_720 f h (hlow f hf))))
    · exact Or.inr (Or.inr (Or.inr (Or.inl (formatBuckets_1080 f h (hlow f hf)))))
    · exact Or.inr (Or.inr (Or.inr (Or.inr (formatBuckets_1440 f h (hlow f hf)))))
  obtain ⟨f1, hf1, hh1⟩ := hc144
  obtain ⟨f2, hf2, hh2⟩ := hc360
  obtain ⟨f3, hf3, hh3⟩ := hc720
  obtain ⟨f4, hf4, hh4⟩ := hc1080
  obtain ⟨f5, hf5, hh5⟩ := hc1440
  have m144p : "144p" ∈ bucket_avail fs := by
    rw [mem_bucket_avail]
    exact ⟨f1, hf1, by rw [formatBuckets_144 f1 hh1]; simp⟩
  have m360p : "360p" ∈ bucket_avail fs := by
    rw [mem_bucket_avail]
    exact ⟨f2, hf2, by rw [formatBuckets_360 f2 hh2]; simp⟩
  have m720p : "720p" ∈ bucket_avail fs := by
    rw [mem_bucket_avail]
    exact ⟨f3, hf3, by rw [formatBuckets_720 f3 hh3 (hlow f3 hf3)]; simp⟩
  have m1080p : "1080p" ∈ bucket_avail fs := by
    rw [mem_bucket_avail]
    exact ⟨f4, hf4, by rw [formatBuckets_1080 f4 hh4 (hlow f4 hf4)]; simp⟩
  have m2k : "2k" ∈ bucket_avail fs := by
    rw [mem_bucket_avail]
    exact ⟨f5, hf5, by rw [formatBuckets_1440 f5 hh5 (hlow f5 hf5)]; simp⟩
  have hnot : ∀ q : String, q ∉ (["144p"] : List String) →
      q ∉ (["360p"] : List String) → q ∉ (["720p"] : List String) →
      q ∉ (["1080p"] : List String) → q ∉ (["2k", "1080p"] : List String) →
      q ∉ bucket_avail fs := by
    intro q h1 h2 h3 h4 h5 hq
    rw [mem_bucket_avail] at hq
    obtain ⟨f, hf, hm⟩ := hq
    rcases hfb f hf with h | h | h | h | h <;> rw [h] at hm
    · exact h1 hm
    · exact h2 hm
    · exact h3 hm
    · exact h4 hm
    · exact h5 hm
  simp only [available_buckets, hfs, Option.getD_some, ALL_QUALITIES,
    List.filter_cons, List.filter_nil, decide_eq_true_eq]
  rw [if_pos m2k,
    if_neg (hnot "1080p60" (by decide) (by decide) (by decide) (by decide) (by decide)),
    if_pos m1080p,
    if_neg (hnot "720p60" (by decide) (by decide) (by decide) (by decide) (by decide)),
    if_pos m720p, if_pos m360p,
    if_neg (hnot "240p" (by decide) (by decide) (by decide) (by decide) (by decide)),
    if_pos m144p]
  rfl

theorem claim_C3_witness :
    available_buckets ⟨some "v", some [⟨some 144, some 30⟩, ⟨some 360, some 30⟩,
      ⟨some 720, some 30⟩, ⟨some 1080, some 30⟩, ⟨some 1440, some 30⟩]⟩ =
      ["2k", "1080p", "720p", "360p", "144p"] :=
  claim_C3_five_heights
    ⟨some "v", some [⟨some 144, some 30⟩, ⟨some 360, some 30⟩,
      ⟨some 720, some 30⟩, ⟨some 1080, some 30⟩, ⟨some 1440, some 30⟩]⟩
    [⟨some 144, some 30⟩, ⟨some 360, some 30⟩, ⟨some 720, some 30⟩,
      ⟨some 1080, some 30⟩, ⟨some 1440, some 30⟩] rfl
    (by decide) (by decide)
    ⟨⟨some 144, some 30⟩, by decide⟩
    ⟨⟨some 360, some 30⟩, by decide⟩
    ⟨⟨some 720, some 30⟩, by decide⟩
    ⟨⟨some 1080, some 30⟩, by decide⟩
    ⟨⟨some 1440, some 30⟩, by decide⟩

/-- A session cookie as collected by the headless browser
(`get_cookies_headless`): domain, path, secure flag, expiry epoch, name and
value. -/
structure Cookie where
  domain : String
  path : String
  secure : Bool
  expires : Nat
  name : String
  value : String
deriving DecidableEq, Repr

/-- The Python test `domain.startswith(".")`, embedded as a check on the
first character of the string. -/
def startsWithDot (s : String) : Bool :=
  match s.data with
  | [] => false
  | ch :: _ => ch == '.'

/-- Modelled from the spec: the host-only flag field of a cookie-file
record, `TRUE` iff the domain starts with a dot.  The serializer
`save_cookies_to_file` in `src/main.py` (lines 359-360) is an empty stub
(`pass`), so the field computation is missing from the source and is taken
from the spec's words. -/
def cookie_flag (c : Cookie) : String :=
  if startsWithDot c.domain then "TRUE" else "FALSE"

/-- Modelled from the spec: the secure field of a cookie-file record,
`TRUE`/`FALSE` from the cookie's secure flag (missing from the source for
the same reason as `cookie_flag`). -/
def cookie_secure_field (c : Cookie) : String :=
  if c.secure then "TRUE" else "FALSE"

/-- Modelled from the spec: one tab-separated cookie-file record
`domain\tflag\tpath\tsecure\texpiry\tname\tvalue` (missing from the source:
`save_cookies_to_file` is a stub). -/
def cookie_line (c : Cookie) : String :=
  c.domain ++ "\t" ++ cookie_flag c ++ "\t" ++ c.path ++ "\t" ++
    cookie_secure_field c ++ "\t" ++ toString c.expires ++ "\t" ++
    c.name ++ "\t" ++ c.value

/-- Modelled from the spec: `save_cookies_to_file(cookies, path)` writes a
literal comment header line and then one tab-separated record per cookie.
The file contents are embedded as the list of written lines; the body of
the source function is an empty stub (`pass`). -/
def save_cookies_to_file (cookies : List Cookie) : List String :=
  "# Netscape HTTP Cookie File" :: cookies.map cookie_line

/-- Claim C5: the cookie with domain `.example.com`, path `/`, secure,
expiry 12345, name `a`, value `b` serializes to the tab-separated record
`.example.com\tTRUE\t/\tTRUE\t12345\ta\tb`, and for every cookie the second
field is `TRUE` exactly when the domain starts with a dot. -/
theorem claim_C5_cookie_serialization :
    save_cookies_to_file [⟨".example.com", "/", true, 12345, "a", "b"⟩] =
      ["# Netscape HTTP Cookie File",
        ".example.com\tTRUE\t/\tTRUE\t12345\ta\tb"] ∧
    ∀ c : Cookie, cookie_flag c = "TRUE" ↔ startsWithDot c.domain = true := by
  refine ⟨by decide, ?_⟩
  intro c
  cases h : startsWithDot c.domain <;> simp [cookie_flag, h]

theorem claim_C5_witness :
    cookie_flag ⟨".example.com", "/", true, 12345, "a", "b"⟩ = "TRUE" ↔
      startsWithDot ".example.com" = true :=
  claim_C5_cookie_serialization.2 ⟨".example.com", "/", true, 12345, "a", "b"⟩

/-- The environment seen by one call of
`ModernYouTubeClient.extract_with_fallback` (`src/main.py` lines 777-786):
the outcome of the credential-free `extract_formats` call, whether
`cookies.txt` already exists, and the outcome of the retry with
`cookies_file="cookies.txt"`.  Exceptions are `Except.error` values. -/
structure FallbackEnv where
  extractPlain : Except String VideoInfo
  cookiesFileExists : Bool
  extractWithCookies : Except String VideoInfo
deriving Repr

/-- The observable outcome of `extract_with_fallback`: the returned tagged
pair (or the propagated terminal exception), plus whether the headless
cookie-harvesting branch (`get_cookies_headless` and
`save_cookies_to_file`) was invoked. -/
structure FallbackOutcome where
  result : Except String (String × VideoInfo)
  harvested : Bool
deriving Repr

/-- `extract_with_fallback(video_url)` from `src/main.py` lines 777-786:
try credential-free extraction and return `("no_cookies", info)`; on any
exception, harvest cookies headlessly only when `cookies.txt` is absent,
then retry with the cookie file and return `("cookies", info2)`, letting a
second-tier exception propagate to the caller. -/
def extract_with_fallback (env : FallbackEnv) : FallbackOutcome :=
  match env.extractPlain with
  | .ok info => ⟨.ok ("no_cookies", info), false⟩
  | .error _ =>
      match env.extractWithCookies with
      | .ok info2 => ⟨.ok ("cookies", info2), !env.cookiesFileExists⟩
      | .error e => ⟨.error e, !env.cookiesFileExists⟩

/-- Claim C6: `extract_with_fallback` returns a tagged result — tier-1
success yields `("no_cookies", info)` with no cookie harvesting; on tier-1
failure, harvesting runs exactly when the cookie file does not already
exist, tier-2 success yields `("cookies", info2)`, and a tier-2 failure is
surfaced to the caller as a terminal error. -/
theorem claim_C6_extract_with_fallback (env : FallbackEnv) :
    (∀ info, env.extractPlain = .ok info →
      extract_with_fallback env = ⟨.ok ("no_cookies", info), false⟩) ∧
    (∀ e, env.extractPlain = .error e →
      ((extract_with_fallback env).harvested = !env.cookiesFileExists) ∧
      (∀ info2, env.extractWithCookies = .ok info2 →
        (extract_with_fallback env).result = .ok ("cookies", info2)) ∧
      (∀ e2, env.extractWithCookies = .error e2 →
        (extract_with_fallback env).result = .error e2)) := by
  obtain ⟨p, cf, w⟩ := env
  refine ⟨?_, ?_⟩
  · intro info hp
    simp only at hp
    rw [extract_with_fallback, hp]
  · intro e hp
    simp only at hp
    refine ⟨?_, ?_, ?_⟩
    · cases w <;> simp [extract_with_fallback, hp]
    · intro info2 hw
      simp only at hw
      rw [extract_with_fallback, hp, hw]
    · intro e2 hw
      simp only at hw
      rw [extract_with_fallback, hp, hw]

theorem claim_C6_witness :
    extract_with_fallback ⟨.error "403", false, .ok ⟨some "v", none⟩⟩ =
      ⟨.ok ("cookies", ⟨some "v", none⟩), true⟩ := by
  have h := (claim_C6_extract_with_fallback
    ⟨.error "403", false, .ok ⟨some "v", none⟩⟩).2 "403" rfl
  have hres := h.2.1 ⟨some "v", none⟩ rfl
  have hh := h.1
  cases he : extract_with_fallback ⟨.error "403", false, .ok ⟨some "v", none⟩⟩
  rw [he] at hres hh
  simp only at hres hh
  rw [hres, hh]
  rfl

/-- A Python value as decoded from the player's JSON reply `data` field:
mpv property replies carry booleans, numbers or `null`. -/
inductive PyVal where
  | bool (b : Bool)
  | num (q : ℚ)
  | null
deriving DecidableEq, Repr

/-- Python truthiness `bool(x)` on a decoded reply value. -/
def pyTruthy : PyVal → Bool
  | .bool b => b
  | .num q => decide (q ≠ 0)
  | .null => false

/-- Python `float(x)` on a decoded reply value: numbers and booleans
convert, `float(None)` raises `TypeError`. -/
def pyFloat : PyVal → Except String ℚ
  | .bool b => .ok (if b then 1 else 0)
  | .num q => .ok q
  | .null => .error "TypeError"

/-- The outcome of one round trip on the mpv IPC socket, as seen by the
property readers in `src/main.py`: the socket file may be absent, the
connect/send/recv steps may raise, `json.loads` may raise, or a decoded
JSON object arrives whose `data` key may be present or absent. -/
inductive IPCWorld where
  | socketAbsent
  | connectError
  | badJson
  | reply (dataField : Option PyVal)
deriving DecidableEq, Repr

/-- The `try` block of `get_fullscreen_status` (`src/main.py` lines 77-99):
the missing-socket check and the fall-through both yield `False` inside the
block; I/O and decode failures raise. -/
def get_fullscreen_status_try (w : IPCWorld) : Except String Bool :=
  match w with
  | .socketAbsent => .ok false
  | .connectError => .error "ConnectionRefusedError"
  | .badJson => .error "JSONDecodeError"
  | .reply (some v) => .ok (pyTruthy v)
  | .reply none => .ok false

/-- `get_fullscreen_status(ipc_path)`: every exception of the `try` block is
caught, logged, and replaced by the default `False`. -/
def get_fullscreen_status (w : IPCWorld) : Bool :=
  match get_fullscreen_status_try w with
  | .ok b => b
  | .error _ => false

/-- The `try` block of `get_current_playback_time` (`src/main.py` lines
113-135); the missing-socket check happens before the block, and
`float(data["data"])` may itself raise. -/
def get_current_playback_time_try (w : IPCWorld) : Except String ℚ :=
  match w with
  | .socketAbsent => .ok 0
  | .connectError => .error "ConnectionRefusedError"
  | .badJson => .error "JSONDecodeError"
  | .reply (some v) => pyFloat v
  | .reply none => .ok 0

/-- `get_current_playback_time(ipc_path)`: an absent socket returns `0.0`
before the `try` block; every exception of the block is caught, logged, and
replaced by the default `0.0`. -/
def get_current_playback_time (w : IPCWorld) : ℚ :=
  match w with
  | .socketAbsent => 0
  | _ =>
      match get_current_playback_time_try w with
      | .ok q => q
      | .error _ => 0

/-- Claim C7: on an absent socket file, a refused connection, or a
malformed response, `get_fullscreen_status` returns `False` and
`get_current_playback_time` returns `0.0`; and every exception raised
inside either reader's `try` block is swallowed into the same defaults, so
neither function ever propagates an exception to its caller. -/
theorem claim_C7_ipc_defaults (w : IPCWorld) :
    ((w = .socketAbsent ∨ w = .connectError ∨ w = .badJson) →
      get_fullscreen_status w = false ∧ get_current_playback_time w = 0) ∧
    (∀ e, get_fullscreen_status_try w = .error e →
      get_fullscreen_status w = false) ∧
    (∀ e, get_current_playback_time_try w = .error e →
      get_current_playback_time w = 0) := by
  refine ⟨?_, ?_, ?_⟩
  · rintro (rfl | rfl | rfl) <;> exact ⟨rfl, rfl⟩
  · intro e he
    simp [get_fullscreen_status, he]
  · intro e he
    cases w <;> simp_all [get_current_playback_time]

theorem claim_C7_witness :
    get_fullscreen_status .socketAbsent = false ∧
      get_current_playback_time .socketAbsent = 0 :=
  (claim_C7_ipc_defaults .socketAbsent).1 (Or.inl rfl)

/-- The comment-loading slice of `ModernYouTubeClient`'s state, with ghost
counters for the scrape workers dispatched by `on_load_more_comments` and
the completion callbacks delivered to `on_more_comments_fetched`.
`hasUrl` embeds `self.current_video_url` being non-`None`. -/
structure SessionState where
  hasUrl : Bool
  comments_loading : Bool
  comment_scroll_count : Nat
  scrapes_dispatched : Nat
  scrapes_completed : Nat
deriving DecidableEq, Repr

/-- `on_load_more_comments` (`src/main.py` lines 1105-1125): return
immediately when there is no current video URL or a load is already in
flight; otherwise set the flag, bump the scroll depth, and dispatch one
scrape worker. -/
def on_load_more_comments (s : SessionState) : SessionState :=
  if s.hasUrl = false then s
  else if s.comments_loading then s
  else
    { s with
        comments_loading := true
        comment_scroll_count := s.comment_scroll_count + 1
        scrapes_dispatched := s.scrapes_dispatched + 1 }

/-- `on_more_comments_fetched` (`src/main.py` lines 1127-1139): the
completion callback clears the in-flight flag (the rest of the body only
updates UI widgets). -/
def on_more_comments_fetched (s : SessionState) : SessionState :=
  { s with
      comments_loading := false
      scrapes_completed := s.scrapes_completed + 1 }

/-- `on_playback_scroll` (`src/main.py` lines 1096-1102): the
scroll-threshold trigger, which re-checks the button state and the
in-flight flag before delegating to `on_load_more_comments`. -/
def on_playback_scroll (s : SessionState) (buttonEnabled nearBottom : Bool) :
    SessionState :=
  if nearBottom && buttonEnabled && !s.comments_loading then
    on_load_more_comments s
  else s

/-- At most one scrape is in flight: dispatched scrapes exceed completed
ones exactly by the in-flight flag. -/
def inFlightInv (s : SessionState) : Prop :=
  s.scrapes_dispatched =
    s.scrapes_completed + (if s.comments_loading then 1 else 0)

/-- Claim C9: while `comments_loading` is set, both triggers (button click
and scroll threshold) dispatch no scrape and change no state; a dispatch
happens only from a clear flag and sets it; the completion callback clears
the flag; and the flag accounts exactly for the one possibly-in-flight
scrape, so at most one load is ever in flight. -/
theorem claim_C9_in_flight_guard (s : SessionState) :
    (s.comments_loading = true →
      on_load_more_comments s = s ∧
      ∀ be nb, on_playback_scroll s be nb = s) ∧
    ((on_load_more_comments s).scrapes_dispatched ≠ s.scrapes_dispatched →
      s.comments_loading = false ∧
      (on_load_more_comments s).comments_loading = true) ∧
    ((on_more_comments_fetched s).comments_loading = false) ∧
    (inFlightInv s → inFlightInv (on_load_more_comments s)) ∧
    (inFlightInv s → s.comments_loading = true →
      inFlightInv (on_more_comments_fetched s)) ∧
    (inFlightInv s →
      s.scrapes_dispatched ≤ s.scrapes_completed + 1) := by
  obtain ⟨u, l, c, d, k⟩ := s
  refine ⟨?_, ?_, ?_, ?_, ?_, ?_⟩
  · rintro rfl
    refine ⟨?_, ?_⟩
    · simp [on_load_more_comments]
    · intro be nb
      simp [on_playback_scroll]
  · intro hd
    cases u <;> cases l <;>
      simp_all [on_load_more_comments]
  · simp [on_more_comments_fetched]
  · intro hinv
    cases u <;> cases l <;>
      simp_all [on_load_more_comments, inFlightInv, on_more_comments_fetched]
  · rintro hinv rfl
    simp_all [inFlightInv, on_more_comments_fetched]
  · intro hinv
    cases l <;> simp_all [inFlightInv]

theorem claim_C9_witness :
    on_load_more_comments ⟨true, true, 1, 1, 0⟩ = ⟨true, true, 1, 1, 0⟩ :=
  ((claim_C9_in_flight_guard ⟨true, true, 1, 1, 0⟩).1 rfl).1

/-- One scraped comment as built by `scrape_comments_headless`
(`src/main.py` lines 56-71): username, optional avatar URL, text. -/
structure CommentRecord where
  username : String
  avatar : Option String
  text : String
deriving DecidableEq, Repr

/-- `dup_key = (user, text)` (`src/main.py` line 63): the de-facto comment
identity used for deduplication. -/
def dup_key (c : CommentRecord) : String × String :=
  (c.username, c.text)

/-- The dedup scan of `scrape_comments_headless` (`src/main.py` lines
31-72) over the comment blocks rendered on the page after scrolling: each
block whose `dup_key` is already in `existing_ids` is skipped; otherwise
the key is added to `existing_ids` and the record appended to
`new_comments`.  The browser navigation and scrolling are embedded as the
given block list; the mutated `existing_ids` set (a list used through
membership) is returned alongside the new records.  The `max_comments`
parameter of the source is unused by its body. -/
def scrape_comments_headless :
    List CommentRecord → List (String × String) →
      List CommentRecord × List (String × String)
  | [], existing_ids => ([], existing_ids)
  | b :: bs, existing_ids =>
      if dup_key b ∈ existing_ids then
        scrape_comments_headless bs existing_ids
      else
        let r := scrape_comments_headless bs (dup_key b :: existing_ids)
        (b :: r.1, r.2)

/-- The `existing_ids` set only grows across a scan. -/
theorem scrape_seen_mono (bs : List CommentRecord) (x : String × String) :
    ∀ seen, x ∈ seen → x ∈ (scrape_comments_headless bs seen).2 := by
  induction bs with
  | nil =>
      intro seen hx
      simpa [scrape_comments_headless] using hx
  | cons b bs ih =>
      intro seen hx
      by_cases h : dup_key b ∈ seen
      · simp only [scrape_comments_headless, if_pos h]
        exact ih seen hx
      · simp only [scrape_comments_headless, if_neg h]
        exact ih (dup_key b :: seen) (List.mem_cons_of_mem _ hx)

/-- Every record returned by a scan was unseen before the call and is seen
after it. -/
theorem scrape_returned_new (bs : List CommentRecord) (c : CommentRecord) :
    ∀ seen, c ∈ (scrape_comments_headless bs seen).1 →
      dup_key c ∉ seen ∧ dup_key c ∈ (scrape_comments_headless bs seen).2 := by
  induction bs with
  | nil =>
      intro seen hc
      simp [scrape_comments_headless] at hc
  | cons b bs ih =>
      intro seen hc
      by_cases h : dup_key b ∈ seen
      · simp only [scrape_comments_headless, if_pos h] at hc ⊢
        exact ih seen hc
      · simp only [scrape_comments_headless, if_neg h] at hc ⊢
        rcases List.mem_cons.mp hc with rfl | hc
        · exact ⟨h, scrape_seen_mono bs _ _ (List.mem_cons_self _ _)⟩
        · have h2 := ih (dup_key b :: seen) hc
          exact ⟨fun hmem => h2.1 (List.mem_cons_of_mem _ hmem), h2.2⟩

/-- A scan whose every block is already seen returns nothing. -/
theorem scrape_all_seen (bs : List CommentRecord) :
    ∀ seen, (∀ b ∈ bs, dup_key b ∈ seen) →
      (scrape_comments_headless bs seen).1 = [] := by
  induction bs with
  | nil =>
      intro seen _
      simp [scrape_comments_headless]
  | cons b bs ih =>
      intro seen hall
      have hb : dup_key b ∈ seen := hall b (List.mem_cons_self _ _)
      simp only [scrape_comments_headless, if_pos hb]
      exact ih seen (fun x hx => hall x (List.mem_cons_of_mem _ hx))

/-- A scan whose blocks carry exactly one unseen key `k` (present at least
once) returns exactly one record, keyed `k`. -/
theorem scrape_single_new (bs : List CommentRecord) (k : String × String) :
    ∀ seen, (∀ b ∈ bs, dup_key b ∈ seen ∨ dup_key b = k) → k ∉ seen →
      (∃ b ∈ bs, dup_key b = k) →
      ((scrape_comments_headless bs seen).1).map dup_key = [k] := by
  induction bs with
  | nil =>
      intro seen _ _ hex
      simp at hex
  | cons b bs ih =>
      intro seen hall hk hex
      by_cases h : dup_key b ∈ seen
      · simp only [scrape_comments_headless, if_pos h]
        apply ih seen (fun x hx => hall x (List.mem_cons_of_mem _ hx)) hk
        rcases hex with ⟨b0, hb0, hkey⟩
        rcases List.mem_cons.mp hb0 with rfl | hb0
        · exact absurd (hkey ▸ h) hk
        · exact ⟨b0, hb0, hkey⟩
      · have hbk : dup_key b = k := (hall b (List.mem_cons_self _ _)).resolve_left h
        simp only [scrape_comments_headless, if_neg h]
        have hrest : (scrape_comments_headless bs (dup_key b :: seen)).1 = [] := by
          apply scrape_all_seen
          intro x hx
          rcases hall x (List.mem_cons_of_mem _ hx) with hs | hs
          · exact List.mem_cons_of_mem _ hs
          · rw [hs, ← hbk]
            exact List.mem_cons_self _ _
        rw [hbk] at hrest
        simp [hrest, hbk]

/-- Claim C8: for two successive scans sharing the same `existing_ids` set,
where the second scan's rendered blocks cover the first scan's
(username, text) pairs plus exactly one pair `k` not yet seen, the second
scan returns exactly one record, keyed `k`; and every returned record's key
was not in `existing_ids` before the call and is in it after the call. -/
theorem claim_C8_comment_dedup (b1 b2 : List CommentRecord)
    (s0 : List (String × String)) (k : String × String)
    (_hsup : ∀ c ∈ (scrape_comments_headless b1 s0).1,
      ∃ b ∈ b2, dup_key b = dup_key c)
    (hcover : ∀ b ∈ b2,
      (∃ c ∈ (scrape_comments_headless b1 s0).1, dup_key b = dup_key c) ∨
        dup_key b = k)
    (hknew : k ∉ (scrape_comments_headless b1 s0).2)
    (hkin : ∃ b ∈ b2, dup_key b = k) :
    ((scrape_comments_headless b2 (scrape_comments_headless b1 s0).2).1).map
        dup_key = [k] ∧
    ∀ c ∈ (scrape_comments_headless b2 (scrape_comments_headless b1 s0).2).1,
      dup_key c ∉ (scrape_comments_headless b1 s0).2 ∧
      dup_key c ∈
        (scrape_comments_headless b2 (scrape_comments_headless b1 s0).2).2 := by
  constructor
  · apply scrape_single_new b2 k _ _ hknew hkin
    intro b hb
    rcases hcover b hb with ⟨c, hc, hkey⟩ | hs
    · left
      rw [hkey]
      exact (scrape_returned_new b1 c s0 hc).2
    · right
      exact hs
  · intro c hc
    exact scrape_returned_new b2 c _ hc

theorem claim_C8_witness :
    ((scrape_comments_headless
        [⟨"u1", none, "t1"⟩, ⟨"u2", some "a", "t2"⟩]
        (scrape_comments_headless [⟨"u1", none, "t1"⟩] []).2).1).map dup_key =
      [("u2", "t2")] :=
  (claim_C8_comment_dedup [⟨"u1", none, "t1"⟩]
    [⟨"u1", none, "t1"⟩, ⟨"u2", some "a", "t2"⟩] [] ("u2", "t2")
    (by decide) (by decide) (by decide)
    ⟨⟨"u2", some "a", "t2"⟩, by decide⟩).1

/-- The decimal digit characters produced by Python's `str`/format
machinery for one digit value. -/
def digitChar (d : Nat) : Char :=
  match d with
  | 0 => '0'
  | 1 => '1'
  | 2 => '2'
  | 3 => '3'
  | 4 => '4'
  | 5 => '5'
  | 6 => '6'
  | 7 => '7'
  | 8 => '8'
  | 9 => '9'
  | _ => '*'

/-- The numeric value of a digit character, as `int` reads it. -/
def charDigitVal (c : Char) : Nat :=
  c.toNat - 48

/-- The decimal rendering of a natural number, most significant digit
first: the character content of Python `str(n)` for non-negative `n`. -/
def toDecimalDigits (n : Nat) : List Char :=
  if _h : n < 10 then [digitChar n]
  else toDecimalDigits (n / 10) ++ [digitChar (n % 10)]
decreasing_by exact Nat.div_lt_self (by omega) (by omega)

/-- The Python format item `{x:02}`: the decimal rendering left-padded with
zeros to width 2 (wider renderings are kept whole). -/
def pad2 (n : Nat) : List Char :=
  List.replicate (2 - (toDecimalDigits n).length) '0' ++ toDecimalDigits n

/-- `YouTubeClient.format_duration` (`src/youtube_player.py` lines
223-226): `minutes, seconds = divmod(duration, 60)`,
`hours, minutes = divmod(minutes, 60)`, rendered as
`f"{hours:02}:{minutes:02}:{seconds:02}"`, embedded as the character list
of the produced string. -/
def format_duration (duration : Nat) : List Char :=
  pad2 (duration / 60 / 60) ++
    (':' :: (pad2 (duration / 60 % 60) ++ (':' :: pad2 (duration % 60))))

/-- Python `duration_text.split(":")` on the character list of the
string. -/
def splitOnColon : List Char → List (List Char)
  | [] => [[]]
  | c :: cs =>
      if c = ':' then [] :: splitOnColon cs
      else
        match splitOnColon cs with
        | [] => [[c]]
        | p :: ps => (c :: p) :: ps

/-- Python `int(part)` on a character list: the decimal value of a
non-empty all-digit string, an exception (`none`) otherwise. -/
def parseInt (l : List Char) : Option Nat :=
  if l ≠ [] ∧ l.all Char.isDigit then
    some (l.foldl (fun a c => a * 10 + charDigitVal c) 0)
  else none

/-- `SearchThread.parse_duration` (`src/youtube_player.py` lines 490-496):
split on `:`; two parts parse as MM:SS, three parts as HH:MM:SS, any other
part count returns 0.  An `int` failure inside the taken branch
propagates as `none`. -/
def parse_duration (l : List Char) : Option Nat :=
  match splitOnColon l with
  | [m, s] =>
      match parseInt m, parseInt s with
      | some mv, some sv => some (mv * 60 + sv)
      | _, _ => none
  | [h, m, s] =>
      match parseInt h, parseInt m, parseInt s with
      | some hv, some mv, some sv => some (hv * 3600 + mv * 60 + sv)
      | _, _, _ => none
  | _ => some 0

/-- A digit value below ten renders as a digit character, never the colon,
and reads back as itself. -/
theorem digitChar_spec (d : Nat) (hd : d < 10) :
    (digitChar d).isDigit = true ∧ digitChar d ≠ ':' ∧
      charDigitVal (digitChar d) = d := by
  interval_cases d <;> exact ⟨by decide, by decide, by decide⟩

/-- The decimal rendering is a non-empty all-digit string whose read-back
value under any accumulator is as expected. -/
theorem toDecimalDigits_spec (n : Nat) :
    (toDecimalDigits n).all Char.isDigit = true ∧
    toDecimalDigits n ≠ [] ∧
    ∀ acc, (toDecimalDigits n).foldl (fun a c => a * 10 + charDigitVal c) acc =
      acc * 10 ^ (toDecimalDigits n).length + n := by
  induction n using Nat.strong_induction_on with
  | _ n ih =>
    by_cases h : n < 10
    · rw [toDecimalDigits, dif_pos h]
      obtain ⟨h1, _h2, h3⟩ := digitChar_spec n h
      refine ⟨by simp [h1], by simp, ?_⟩
      intro acc
      simp [List.foldl_cons, List.foldl_nil, h3, pow_one]
    · have hdiv : n / 10 < n := Nat.div_lt_self (by omega) (by omega)
      obtain ⟨ha, hne, hval⟩ := ih (n / 10) hdiv
      obtain ⟨d1, _d2, d3⟩ := digitChar_spec (n % 10) (Nat.mod_lt _ (by omega))
      rw [toDecimalDigits, dif_neg h]
      refine ⟨by simp [List.all_append, ha, d1], by simp, ?_⟩
      intro acc
      rw [List.foldl_append, hval acc]
      simp only [List.foldl_cons, List.foldl_nil, d3, List.length_append,
        List.length_cons, List.length_nil, Nat.zero_add]
      calc (acc * 10 ^ (toDecimalDigits (n / 10)).length + n / 10) * 10 + n % 10
          = acc * (10 ^ (toDecimalDigits (n / 10)).length * 10) +
              (10 * (n / 10) + n % 10) := by ring
        _ = acc * 10 ^ ((toDecimalDigits (n / 10)).length + 1) + n := by
              rw [pow_succ, Nat.div_add_mod]

/-- The two-padded rendering is all digits. -/
theorem pad2_all_digits (n : Nat) : (pad2 n).all Char.isDigit = true := by
  have h1 : (List.replicate (2 - (toDecimalDigits n).length) '0').all
      Char.isDigit = true := by
    rw [List.all_eq_true]
    intro c hc
    rw [List.eq_of_mem_replicate hc]
    decide
  rw [pad2, List.all_append]
  simp [h1, (toDecimalDigits_spec n).1]

/-- An all-digit character list never contains the colon. -/
theorem no_colon_of_digits (l : List Char) (h : l.all Char.isDigit = true) :
    ':' ∉ l := by
  intro hm
  exact absurd (List.all_eq_true.mp h _ hm) (by decide)

/-- Reading back the two-padded rendering gives the number: the zero
padding does not change the accumulated value. -/
theorem parseInt_pad2 (n : Nat) : parseInt (pad2 n) = some n := by
  obtain ⟨ha, hne, hval⟩ := toDecimalDigits_spec n
  have hz : ∀ k, (List.replicate k '0').foldl
      (fun a c => a * 10 + charDigitVal c) 0 = 0 := by
    intro k
    induction k with
    | zero => rfl
    | succ k ihk => simpa [List.replicate_succ, charDigitVal] using ihk
  rw [parseInt, if_pos]
  · rw [pad2, List.foldl_append, hz, hval 0]
    simp
  · constructor
    · rw [pad2]
      intro hcontra
      exact hne (List.append_eq_nil.mp hcontra).2
    · exact pad2_all_digits n

/-- Splitting a colon-free list yields a single part. -/
theorem splitOnColon_no_colon (l : List Char) (h : ':' ∉ l) :
    splitOnColon l = [l] := by
  induction l with
  | nil => rfl
  | cons c cs ih =>
      have hc : ¬ c = ':' := fun hcc => h (hcc ▸ List.mem_cons_self _ _)
      have hcs := ih (fun hm => h (List.mem_cons_of_mem _ hm))
      rw [splitOnColon, if_neg hc, hcs]

/-- Splitting past a colon-free head produces the head as the first part. -/
theorem splitOnColon_append (a rest : List Char) (h : ':' ∉ a) :
    splitOnColon (a ++ (':' :: rest)) = a :: splitOnColon rest := by
  induction a with
  | nil => simp [splitOnColon]
  | cons c cs ih =>
      have hc : ¬ c = ':' := fun hcc => h (hcc ▸ List.mem_cons_self _ _)
      have hcs := ih (fun hm => h (List.mem_cons_of_mem _ hm))
      rw [List.cons_append, splitOnColon, if_neg hc, hcs]

/-- Claim C10: duration round trip.  For every non-negative number of
seconds `d`, `parse_duration (format_duration d) = d`: `format_duration`
renders `d` as HH:MM:SS via divmod and `parse_duration` of the three-part
result returns hours*3600 + minutes*60 + seconds; and any input splitting
into a part count other than 2 or 3 parses to 0. -/
theorem claim_C10_duration_round_trip :
    (∀ d : Nat, parse_duration (format_duration d) = some d) ∧
    (∀ l : List Char, (splitOnColon l).length ≠ 2 →
      (splitOnColon l).length ≠ 3 → parse_duration l = some 0) := by
  constructor
  · intro d
    have hs : splitOnColon (format_duration d) =
        [pad2 (d / 60 / 60), pad2 (d / 60 % 60), pad2 (d % 60)] := by
      rw [format_duration,
        splitOnColon_append _ _ (no_colon_of_digits _ (pad2_all_digits _)),
        splitOnColon_append _ _ (no_colon_of_digits _ (pad2_all_digits _)),
        splitOnColon_no_colon _ (no_colon_of_digits _ (pad2_all_digits _))]
    rw [parse_duration, hs]
    simp only [parseInt_pad2]
    congr 1
    omega
  · intro l h2 h3
    rcases hs : splitOnColon l with _ | ⟨a, _ | ⟨b, _ | ⟨c, _ | ⟨e, t⟩⟩⟩⟩
    · rw [parse_duration, hs]
    · rw [parse_duration, hs]
    · rw [hs] at h2
      simp at h2
    · rw [hs] at h3
      simp at h3
    · rw [parse_duration, hs]

theorem claim_C10_witness :
    parse_duration (format_duration 3661) = some 3661 ∧
    (splitOnColon ['x']).length ≠ 2 ∧ (splitOnColon ['x']).length ≠ 3 ∧
      parse_duration ['x'] = some 0 :=
  ⟨claim_C10_duration_round_trip.1 3661, by decide, by decide,
    claim_C10_duration_round_trip.2 ['x'] (by decide) (by decide)⟩
